import Mathlib

/-!
Shallow embedding of the positioner-control core of `modbus_control_final.py`
(mmWave positioner control).  Physical quantities (degrees, millimetres,
seconds) are modelled as rationals; Python `int()` conversion is modelled as
truncation toward zero; the Modbus bus is modelled by an oracle of position
reads (`ℕ → Option ℚ`, one entry per `read_position` call) together with an
explicit list of the write commands a method issues.
-/

namespace MmWave

/-- Position tolerance constant `TOLERANCE = 0.1` from the source. -/
def TOLERANCE : ℚ := 1/10

/-- The four axis kinds of `PositionerType` in the source. -/
inductive PositionerType where
  | ANTENNA_ROLL
  | ANTENNA_HEIGHT
  | EUT_ROLL
  | TURNTABLE_ROLL
  deriving DecidableEq

/-- Table `PositionerConstants.STEPS_PER_DEGREE`: steps per degree for the three
angle axes.  The source dictionary has no entry for the height axis (it is
never looked up for it); we map it to 0, an unreachable value. -/
def STEPS_PER_DEGREE : PositionerType → ℚ
  | .ANTENNA_ROLL => 1000
  | .EUT_ROLL => 80
  | .TURNTABLE_ROLL => 373
  | .ANTENNA_HEIGHT => 0

/-- Constant `PositionerConstants.HEIGHT_CONSTANTS['COUNTS_PER_MM']`. -/
def COUNTS_PER_MM : ℚ := 8960

/-- Table `PositionerConstants.POSITION_LIMITS`: (MIN, MAX) per axis. -/
def POSITION_LIMITS : PositionerType → ℚ × ℚ
  | .TURNTABLE_ROLL => (0, 360)
  | .EUT_ROLL => (-360, 360)
  | .ANTENNA_ROLL => (0, 180)
  | .ANTENNA_HEIGHT => (1520, 1900)

/-- Python `int()` applied to a rational: truncation toward zero. -/
def pyInt (q : ℚ) : ℤ := if 0 ≤ q then ⌊q⌋ else ⌈q⌉

/-- Method `PositionerController.convert_to_counts`: `int(value * COUNTS_PER_MM)`
for the height axis, `int(value * STEPS_PER_DEGREE[type])` otherwise. -/
def convert_to_counts (pt : PositionerType) (value : ℚ) : ℤ :=
  if pt = PositionerType.ANTENNA_HEIGHT then pyInt (value * COUNTS_PER_MM)
  else pyInt (value * STEPS_PER_DEGREE pt)

/-- Method `PositionerController.convert_from_counts`: `counts / COUNTS_PER_MM` for
the height axis, `counts / steps_per_degree` otherwise (`/` is Python float
division, modelled exactly on ℚ). -/
def convert_from_counts (pt : PositionerType) (counts : ℤ) : ℚ :=
  if pt = PositionerType.ANTENNA_HEIGHT then (counts : ℚ) / COUNTS_PER_MM
  else (counts : ℚ) / STEPS_PER_DEGREE pt

/-- The per-axis conversion factor (counts per physical unit) implied by the
two branches of `convert_to_counts` / `convert_from_counts`. -/
def conversionFactor (pt : PositionerType) : ℚ :=
  if pt = PositionerType.ANTENNA_HEIGHT then COUNTS_PER_MM
  else STEPS_PER_DEGREE pt

theorem convert_to_counts_eq (pt : PositionerType) (v : ℚ) :
    convert_to_counts pt v = pyInt (v * conversionFactor pt) := by
  unfold convert_to_counts conversionFactor
  split <;> rfl

theorem convert_from_counts_eq (pt : PositionerType) (z : ℤ) :
    convert_from_counts pt z = (z : ℚ) / conversionFactor pt := by
  unfold convert_from_counts conversionFactor
  split <;> rfl

theorem conversionFactor_pos (pt : PositionerType) : 0 < conversionFactor pt := by
  cases pt <;> decide

/-- Method `PositionerController.determine_shortest_path`: the height axis returns
the target unchanged; angle axes unwrap the target when the difference
exceeds 180° in magnitude. -/
def determine_shortest_path (pt : PositionerType) (current_pos target_pos : ℚ) : ℚ :=
  if pt = PositionerType.ANTENNA_HEIGHT then target_pos
  else
    let diff := target_pos - current_pos
    if diff > 180 then current_pos - (360 - diff)
    else if diff < -180 then current_pos + (360 + diff)
    else target_pos

/-- Truncation `pyInt` is within distance 1 of its argument. -/
theorem pyInt_dist (q : ℚ) : |(pyInt q : ℚ) - q| < 1 := by
  unfold pyInt
  split
  · rw [abs_lt]
    constructor
    · have := Int.sub_one_lt_floor q
      linarith
    · have := Int.floor_le q
      linarith
  · rw [abs_lt]
    constructor
    · have := Int.le_ceil q
      linarith
    · have := Int.ceil_lt_add_one q
      linarith

/-- C1: shortest-path adjustment formula, per axis, plus the two concrete
cases from the spec (350→10 gives 370, 10→350 gives −10) on every angle
axis; the height axis always returns the target unchanged. -/
theorem shortest_path_spec :
    (∀ c t : ℚ,
      determine_shortest_path PositionerType.ANTENNA_ROLL c t =
        (if t - c > 180 then c - (360 - (t - c))
         else if t - c < -180 then c + (360 + (t - c)) else t) ∧
      determine_shortest_path PositionerType.EUT_ROLL c t =
        (if t - c > 180 then c - (360 - (t - c))
         else if t - c < -180 then c + (360 + (t - c)) else t) ∧
      determine_shortest_path PositionerType.TURNTABLE_ROLL c t =
        (if t - c > 180 then c - (360 - (t - c))
         else if t - c < -180 then c + (360 + (t - c)) else t) ∧
      determine_shortest_path PositionerType.ANTENNA_HEIGHT c t = t) ∧
    determine_shortest_path PositionerType.ANTENNA_ROLL 350 10 = 370 ∧
    determine_shortest_path PositionerType.EUT_ROLL 350 10 = 370 ∧
    determine_shortest_path PositionerType.TURNTABLE_ROLL 350 10 = 370 ∧
    determine_shortest_path PositionerType.ANTENNA_ROLL 10 350 = -10 ∧
    determine_shortest_path PositionerType.EUT_ROLL 10 350 = -10 ∧
    determine_shortest_path PositionerType.TURNTABLE_ROLL 10 350 = -10 := by
  refine ⟨fun c t => ⟨rfl, rfl, rfl, rfl⟩, ?_, ?_, ?_, ?_, ?_, ?_⟩ <;>
    norm_num [determine_shortest_path] <;> decide

end MmWave

namespace MmWave

/-- Register write commands a controller method can issue (reads are supplied
by the oracle, so only writes are recorded). `retryStart` is the START-bit
0→1 pulse resent by `check_position_continuously`; `startPulse` the one from
`start_movement`; `stop` the START-bit clear of `stop_movement`. -/
inductive Cmd where
  | writeTarget (counts : ℤ)
  | startPulse
  | retryStart
  | stop
  deriving DecidableEq

/-- Method `PositionerController.set_target_position`: reads the current position
(`current_read`, from the oracle), applies the shortest-path adjustment,
range-checks the adjusted target and only then writes the TARGET register.
Returns the boolean result and the list of register writes issued. -/
def set_target_position (pt : PositionerType) (current_read : Option ℚ)
    (target : ℚ) : Bool × List Cmd :=
  match current_read with
  | none => (false, [])
  | some current_pos =>
    let optimized_target := determine_shortest_path pt current_pos target
    if ¬((POSITION_LIMITS pt).1 ≤ optimized_target ∧
          optimized_target ≤ (POSITION_LIMITS pt).2) then
      (false, [])
    else
      (true, [Cmd.writeTarget (convert_to_counts pt optimized_target)])

/-- C2: whenever the shortest-path-adjusted target lies outside the axis's
position limits, `set_target_position` returns failure and issues no
register write at all. -/
theorem set_target_position_range_reject (pt : PositionerType) (c target : ℚ)
    (h : ¬((POSITION_LIMITS pt).1 ≤ determine_shortest_path pt c target ∧
           determine_shortest_path pt c target ≤ (POSITION_LIMITS pt).2)) :
    set_target_position pt (some c) target = (false, []) := by
  simp only [set_target_position]
  rw [if_pos h]

/-- Witness for C2: the spec's scenario — height axis, range [1520, 1900],
target 2000 mm → failure, no write. -/
theorem set_target_position_range_reject_witness :
    ¬((POSITION_LIMITS PositionerType.ANTENNA_HEIGHT).1 ≤
        determine_shortest_path PositionerType.ANTENNA_HEIGHT 1700 2000 ∧
      determine_shortest_path PositionerType.ANTENNA_HEIGHT 1700 2000 ≤
        (POSITION_LIMITS PositionerType.ANTENNA_HEIGHT).2) ∧
    set_target_position PositionerType.ANTENNA_HEIGHT (some 1700) 2000 =
      (false, []) :=
  ⟨by norm_num [determine_shortest_path, POSITION_LIMITS],
   set_target_position_range_reject PositionerType.ANTENNA_HEIGHT 1700 2000
     (by norm_num [determine_shortest_path, POSITION_LIMITS])⟩

end MmWave

namespace MmWave

/-- State of the wait-for-completion loop of `move_to_position`:
`readIdx` = next index of the position-read oracle to consume,
`lastAttr` = the controller's `_last_position` attribute used by `is_moving`
(`none` when not yet set), `lastPos` = the loop's `last_pos` local,
`cnt` = `no_movement_count`, `polls` = completed loop iterations,
`cmds` = register writes issued so far (in order). -/
structure WaitSt where
  readIdx : ℕ
  lastAttr : Option ℚ
  lastPos : ℚ
  cnt : ℕ
  polls : ℕ
  cmds : List Cmd
  deriving DecidableEq

/-- Method `PositionerController.is_movement_complete`: `False` when the position
read fails, otherwise position within `TOLERANCE` of the target. -/
def is_movement_complete (target : ℚ) (read : Option ℚ) : Bool :=
  match read with
  | none => false
  | some p => decide (|p - target| < TOLERANCE)

/-- The `while not self.is_movement_complete(target)` loop of
`move_to_position`, driven by a read oracle (`reads i` = result of the
`i`-th `read_position` call) and a clock (`times n` = `time.time() -
start_time` at the timeout check of iteration `n`).  Each iteration performs
the completion-check read, the `check_position_continuously` read (with
stuck-start recovery and timeout check) and the stall-detection read; on
loop exit a final confirming read decides the returned boolean.  `none`
means the fuel ran out before the loop ended. -/
def wait_loop (reads : ℕ → Option ℚ) (times : ℕ → ℚ)
    (max_wait_time target : ℚ) : ℕ → WaitSt → Option (Bool × WaitSt)
  | 0, _ => none
  | fuel + 1, st =>
    if is_movement_complete target (reads st.readIdx) then
      match reads (st.readIdx + 1) with
      | some f =>
        some (decide (|f - target| < TOLERANCE), { st with readIdx := st.readIdx + 2 })
      | none => some (true, { st with readIdx := st.readIdx + 2 })
    else
      let monitored : WaitSt × Bool :=
        match reads (st.readIdx + 1) with
        | none => ({ st with readIdx := st.readIdx + 2 }, false)
        | some c =>
          let lastc := st.lastAttr.getD c
          let moving := 1/100 < |c - lastc| ∧ ¬(|c - target| < TOLERANCE)
          let newCmds := if moving then st.cmds else st.cmds ++ [Cmd.retryStart]
          ({ st with readIdx := st.readIdx + 2, lastAttr := some c, cmds := newCmds },
           decide (times st.polls > max_wait_time))
      let st1 := monitored.1
      if monitored.2 then
        some (false, { st1 with cmds := st1.cmds ++ [Cmd.stop] })
      else
        match reads st1.readIdx with
        | some p =>
          if |p - st1.lastPos| < TOLERANCE then
            if st1.cnt + 1 > 50 then
              some (false, { st1 with readIdx := st1.readIdx + 1, cnt := st1.cnt + 1, cmds := st1.cmds ++ [Cmd.stop] })
            else
              wait_loop reads times max_wait_time target fuel
                { st1 with readIdx := st1.readIdx + 1, cnt := st1.cnt + 1, lastPos := p, polls := st1.polls + 1 }
          else
            wait_loop reads times max_wait_time target fuel
              { st1 with readIdx := st1.readIdx + 1, cnt := 0, lastPos := p, polls := st1.polls + 1 }
        | none =>
          wait_loop reads times max_wait_time target fuel
            { st1 with readIdx := st1.readIdx + 1, polls := st1.polls + 1 }

/-- Method `PositionerController.move_to_position`: initial position read, early
success when already within `TOLERANCE`, target-register write via
`set_target_position` (which performs its own read, index 1), START-bit
pulse, then the waiting loop (`max_wait_time = 120`).  Result: the boolean
outcome, all register writes issued, and the number of completed poll
iterations (`none` only when the loop fuel runs out). -/
def move_to_position (pt : PositionerType) (reads : ℕ → Option ℚ)
    (times : ℕ → ℚ) (target : ℚ) (wait_for_completion : Bool) (fuel : ℕ) :
    Option (Bool × List Cmd × ℕ) :=
  match reads 0 with
  | none => some (false, [], 0)
  | some current_pos =>
    if |current_pos - target| < TOLERANCE then some (true, [], 0)
    else
      let tgt := set_target_position pt (reads 1) target
      if tgt.1 = false then some (false, tgt.2, 0)
      else
        let cmds := tgt.2 ++ [Cmd.startPulse]
        if wait_for_completion then
          match wait_loop reads times 120 target fuel
              { readIdx := 2, lastAttr := none, lastPos := current_pos, cnt := 0, polls := 0, cmds := cmds } with
          | none => none
          | some (ok, st) => some (ok, st.cmds, st.polls)
        else some (true, cmds, 0)

end MmWave

namespace MmWave

/-- C10: if the initial position read succeeds and is already within
`TOLERANCE` of the target, `move_to_position` returns success immediately
and issues no register write at all (no TARGET write, no START pulse). -/
theorem move_to_position_already_there (pt : PositionerType)
    (reads : ℕ → Option ℚ) (times : ℕ → ℚ) (target c : ℚ)
    (wait_for_completion : Bool) (fuel : ℕ)
    (h0 : reads 0 = some c) (h : |c - target| < TOLERANCE) :
    move_to_position pt reads times target wait_for_completion fuel =
      some (true, [], 0) := by
  simp only [move_to_position, h0]
  rw [if_pos h]

/-- Witness for C10 at a concrete input. -/
theorem move_to_position_already_there_witness :
    (fun _ : ℕ => some (90 : ℚ)) 0 = some 90 ∧ |(90 : ℚ) - 90| < TOLERANCE ∧
    move_to_position PositionerType.TURNTABLE_ROLL (fun _ => some 90)
      (fun _ => 0) 90 true 5 = some (true, [], 0) :=
  ⟨rfl, by norm_num [TOLERANCE],
   move_to_position_already_there PositionerType.TURNTABLE_ROLL
     (fun _ => some 90) (fun _ => 0) 90 90 true 5 rfl (by norm_num [TOLERANCE])⟩

/-- Unfolding lemma: when the completion check at the head of the wait loop
succeeds, the loop exits and the returned boolean is decided by the final
confirming read — `true` when that read fails, otherwise the tolerance test
on the read value. -/
theorem wait_loop_complete_step (reads : ℕ → Option ℚ) (times : ℕ → ℚ)
    (max_wait_time target : ℚ) (fuel : ℕ) (st : WaitSt)
    (h : is_movement_complete target (reads st.readIdx) = true) :
    wait_loop reads times max_wait_time target (fuel + 1) st =
      some ((match reads (st.readIdx + 1) with
             | some f => decide (|f - target| < TOLERANCE)
             | none => true),
            { st with readIdx := st.readIdx + 2 }) := by
  rw [wait_loop, if_pos h]
  match hf : reads (st.readIdx + 1) with
  | some f => rfl
  | none => rfl

/-- Unfolding lemma: one full non-exiting iteration of the wait loop on a
stalled position feed (all three reads return `p`, `p` not at target, no
timeout, no previous movement), with `no_movement_count + 1 ≤ 50`: the
stuck-start recovery pulse is resent and the counter increments. -/
theorem wait_loop_stall_step (reads : ℕ → Option ℚ) (times : ℕ → ℚ)
    (target p : ℚ) (fuel : ℕ) (st : WaitSt)
    (h1 : reads st.readIdx = some p)
    (h2 : reads (st.readIdx + 1) = some p)
    (h3 : reads (st.readIdx + 2) = some p)
    (hni : ¬(|p - target| < TOLERANCE))
    (hA : st.lastAttr = none ∨ st.lastAttr = some p)
    (hL : st.lastPos = p)
    (hT : ¬(times st.polls > 120))
    (hc : st.cnt + 1 ≤ 50) :
    wait_loop reads times 120 target (fuel + 1) st =
      wait_loop reads times 120 target fuel
        { st with readIdx := st.readIdx + 3, lastAttr := some p,
                  lastPos := p, cnt := st.cnt + 1, polls := st.polls + 1,
                  cmds := st.cmds ++ [Cmd.retryStart] } := by
  have hcomp : is_movement_complete target (reads st.readIdx) = false := by
    rw [h1]; simp [is_movement_complete, hni]
  have hgetD : st.lastAttr.getD p = p := by
    rcases hA with h | h <;> simp [h]
  have hmov : ¬(1/100 < |p - st.lastAttr.getD p| ∧ ¬(|p - target| < TOLERANCE)) := by
    rw [hgetD]
    simp only [sub_self, abs_zero]
    intro hand
    exact absurd hand.1 (by norm_num)
  have hlp : |p - st.lastPos| < TOLERANCE := by
    rw [hL, sub_self, abs_zero]; norm_num [TOLERANCE]
  have hcnt : ¬(st.cnt + 1 > 50) := by omega
  rw [wait_loop, if_neg (by simp [hcomp]), h2]
  simp only [if_neg hmov, decide_eq_true_eq]
  rw [if_neg hT, h3]
  simp only [hlp, hcnt, if_true, if_false, ite_true, ite_false]

/-- Induction lemma: `k` consecutive stalled iterations (constant reads `p`
never at target, no timeout) that keep `no_movement_count + k ≤ 50` neither
exit nor abort: they only resend the recovery pulse `k` times and advance
the counters. -/
theorem wait_loop_stall_run (reads : ℕ → Option ℚ) (times : ℕ → ℚ)
    (target p : ℚ) :
    ∀ (k : ℕ) (fuel : ℕ) (st : WaitSt),
      1 ≤ k →
      st.cnt + k ≤ 50 →
      (∀ i, i < 3 * k → reads (st.readIdx + i) = some p) →
      (st.lastAttr = none ∨ st.lastAttr = some p) →
      st.lastPos = p →
      (∀ n, ¬(times n > 120)) →
      ¬(|p - target| < TOLERANCE) →
      wait_loop reads times 120 target (fuel + k) st =
        wait_loop reads times 120 target fuel
          { st with readIdx := st.readIdx + 3 * k, lastAttr := some p,
                    lastPos := p, cnt := st.cnt + k, polls := st.polls + k,
                    cmds := st.cmds ++ List.replicate k Cmd.retryStart } := by
  intro k
  induction k with
  | zero => intro fuel st hk; omega
  | succ k ih =>
    intro fuel st _ hcnt hreads hA hL hT hni
    have hstep := wait_loop_stall_step reads times target p (fuel + k) st
      (by simpa using hreads 0 (by omega))
      (hreads 1 (by omega)) (hreads 2 (by omega)) hni hA hL (hT st.polls)
      (by omega)
    rcases Nat.eq_zero_or_pos k with hk0 | hkpos
    · subst hk0
      rw [show fuel + 1 = fuel + 0 + 1 from by omega] at hstep
      rw [hstep]
      simp [List.replicate]
    · rw [show fuel + (k + 1) = (fuel + k) + 1 from by omega, hstep]
      have := ih fuel
        { st with readIdx := st.readIdx + 3, lastAttr := some p,
                  lastPos := p, cnt := st.cnt + 1, polls := st.polls + 1,
                  cmds := st.cmds ++ [Cmd.retryStart] }
        hkpos (by simp; omega)
        (by intro i hi
            simp only []
            rw [show st.readIdx + 3 + i = st.readIdx + (3 + i) from by omega]
            exact hreads (3 + i) (by omega))
        (Or.inr rfl) rfl hT hni
      rw [this]
      have e1 : st.readIdx + 3 + 3 * k = st.readIdx + 3 * (k + 1) := by ring
      have e2 : st.cnt + 1 + k = st.cnt + (k + 1) := by ring
      have e3 : st.polls + 1 + k = st.polls + (k + 1) := by ring
      have e4 : (st.cmds ++ [Cmd.retryStart]) ++ List.replicate k Cmd.retryStart
          = st.cmds ++ List.replicate (k + 1) Cmd.retryStart := by
        rw [List.append_assoc]
        congr 1
      rw [e1, e2, e3, e4]

/-- Helper: when the initial read succeeds away from target and the adjusted
target passes the range check, `move_to_position` (waited) reduces to its
wait loop started from the canonical initial state. -/
theorem move_to_position_enters_loop (pt : PositionerType)
    (reads : ℕ → Option ℚ) (times : ℕ → ℚ) (target c c2 : ℚ) (fuel : ℕ)
    (h0 : reads 0 = some c)
    (hni : ¬(|c - target| < TOLERANCE))
    (h1 : reads 1 = some c2)
    (hrange : (POSITION_LIMITS pt).1 ≤ determine_shortest_path pt c2 target ∧
              determine_shortest_path pt c2 target ≤ (POSITION_LIMITS pt).2) :
    move_to_position pt reads times target true fuel =
      match wait_loop reads times 120 target fuel
          { readIdx := 2, lastAttr := none, lastPos := c, cnt := 0, polls := 0,
            cmds := [Cmd.writeTarget
                       (convert_to_counts pt (determine_shortest_path pt c2 target)),
                     Cmd.startPulse] } with
      | none => none
      | some (ok, st) => some (ok, st.cmds, st.polls) := by
  simp only [move_to_position, h0]
  rw [if_neg hni]
  simp only [set_target_position, h1]
  rw [if_neg (not_not_intro hrange)]
  simp

end MmWave

namespace MmWave

/-- General unfolding lemma: one non-exiting iteration of the wait loop in
which the completion check does not see the target, no timeout fires, the
stall-detection read returns `p` within `TOLERANCE` of the previous poll's
position, and the counter stays at most 50: the loop continues with the
counter incremented; depending on the monitored read and `is_moving`, at
most one recovery pulse is appended. -/
theorem wait_loop_progress_step (reads : ℕ → Option ℚ) (times : ℕ → ℚ)
    (max_wait_time target p : ℚ) (fuel : ℕ) (st : WaitSt)
    (hcomp : is_movement_complete target (reads st.readIdx) = false)
    (hT : ¬(times st.polls > max_wait_time))
    (hr3 : reads (st.readIdx + 2) = some p)
    (hlp : |p - st.lastPos| < TOLERANCE)
    (hc : ¬(st.cnt + 1 > 50)) :
    ∃ (A : Option ℚ) (extra : List Cmd),
      (extra = [] ∨ extra = [Cmd.retryStart]) ∧
      wait_loop reads times max_wait_time target (fuel + 1) st =
        wait_loop reads times max_wait_time target fuel
          { readIdx := st.readIdx + 3, lastAttr := A, lastPos := p,
            cnt := st.cnt + 1, polls := st.polls + 1,
            cmds := st.cmds ++ extra } := by
  rcases h2 : reads (st.readIdx + 1) with _ | c
  · refine ⟨st.lastAttr, [], Or.inl rfl, ?_⟩
    rw [wait_loop, if_neg (by simp [hcomp]), h2]
    simp only [hr3, hlp, hc, if_true, if_false, ite_true, ite_false,
      Bool.false_eq_true, List.append_nil]
  · by_cases hmv : 1/100 < |c - st.lastAttr.getD c| ∧ ¬(|c - target| < TOLERANCE)
    · refine ⟨some c, [], Or.inl rfl, ?_⟩
      rw [wait_loop, if_neg (by simp [hcomp]), h2]
      simp only [if_pos hmv, decide_eq_true_eq]
      rw [if_neg hT]
      simp only [hr3, hlp, hc, if_true, if_false, ite_true, ite_false,
        List.append_nil]
    · refine ⟨some c, [Cmd.retryStart], Or.inr rfl, ?_⟩
      rw [wait_loop, if_neg (by simp [hcomp]), h2]
      simp only [if_neg hmv, decide_eq_true_eq]
      rw [if_neg hT]
      simp only [hr3, hlp, hc, if_true, if_false, ite_true, ite_false]

/-- General unfolding lemma: the aborting iteration — same situation as
`wait_loop_progress_step` but with the counter about to exceed 50: the loop
returns failure having appended (after an optional recovery pulse) exactly
one stop command, and does not count the aborting iteration as a completed
poll. -/
theorem wait_loop_stall_abort_general (reads : ℕ → Option ℚ) (times : ℕ → ℚ)
    (max_wait_time target p : ℚ) (fuel : ℕ) (st : WaitSt)
    (hcomp : is_movement_complete target (reads st.readIdx) = false)
    (hT : ¬(times st.polls > max_wait_time))
    (hr3 : reads (st.readIdx + 2) = some p)
    (hlp : |p - st.lastPos| < TOLERANCE)
    (hc : st.cnt + 1 > 50) :
    ∃ (A : Option ℚ) (extra : List Cmd),
      (extra = [] ∨ extra = [Cmd.retryStart]) ∧
      wait_loop reads times max_wait_time target (fuel + 1) st =
        some (false,
          { readIdx := st.readIdx + 3, lastAttr := A, lastPos := st.lastPos,
            cnt := st.cnt + 1, polls := st.polls,
            cmds := st.cmds ++ extra ++ [Cmd.stop] }) := by
  rcases h2 : reads (st.readIdx + 1) with _ | c
  · refine ⟨st.lastAttr, [], Or.inl rfl, ?_⟩
    rw [wait_loop, if_neg (by simp [hcomp]), h2]
    simp only [hr3, hlp, hc, if_true, if_false, ite_true, ite_false,
      Bool.false_eq_true, List.append_nil]
  · by_cases hmv : 1/100 < |c - st.lastAttr.getD c| ∧ ¬(|c - target| < TOLERANCE)
    · refine ⟨some c, [], Or.inl rfl, ?_⟩
      rw [wait_loop, if_neg (by simp [hcomp]), h2]
      simp only [if_pos hmv, decide_eq_true_eq]
      rw [if_neg hT]
      simp only [hr3, hlp, hc, if_true, if_false, ite_true, ite_false,
        List.append_nil]
    · refine ⟨some c, [Cmd.retryStart], Or.inr rfl, ?_⟩
      rw [wait_loop, if_neg (by simp [hcomp]), h2]
      simp only [if_neg hmv, decide_eq_true_eq]
      rw [if_neg hT]
      simp only [hr3, hlp, hc, if_true, if_false, ite_true, ite_false]

/-- Induction lemma: from any loop state, a window of `k` consecutive polls
(`st.cnt + k = 51`) in which the completion check never sees the target, no
timeout fires, and each stall-detection read changes by less than
`TOLERANCE` from the previous poll's position, drives the loop to a stalled
abort: failure, `k - 1` additionally completed polls, and the commands
extended by recovery pulses only, followed by exactly one stop. -/
theorem wait_loop_stall_window (reads : ℕ → Option ℚ) (times : ℕ → ℚ)
    (target : ℚ) :
    ∀ (k : ℕ), ∀ (fuel : ℕ) (st : WaitSt) (ps : ℕ → ℚ),
      1 ≤ k → st.cnt + k = 51 → k ≤ fuel →
      (∀ j, j < k →
        is_movement_complete target (reads (st.readIdx + 3 * j)) = false) →
      (∀ j, j < k → ¬(times (st.polls + j) > 120)) →
      (∀ j, j < k → reads (st.readIdx + 3 * j + 2) = some (ps j)) →
      |ps 0 - st.lastPos| < TOLERANCE →
      (∀ j, j + 1 < k → |ps (j + 1) - ps j| < TOLERANCE) →
      ∃ (st2 : WaitSt) (pulses : List Cmd),
        (∀ x ∈ pulses, x = Cmd.retryStart) ∧
        wait_loop reads times 120 target fuel st = some (false, st2) ∧
        st2.polls = st.polls + (k - 1) ∧
        st2.cmds = st.cmds ++ pulses ++ [Cmd.stop] := by
  intro k
  induction k with
  | zero => intro fuel st ps h1; omega
  | succ k ih =>
    intro fuel st ps _ hcnt hfuel hnc hT hst hd0 hd
    obtain ⟨f, rfl⟩ : ∃ f, fuel = f + 1 := ⟨fuel - 1, by omega⟩
    rcases Nat.eq_zero_or_pos k with hk0 | hkpos
    · subst hk0
      obtain ⟨A, extra, hex, heq⟩ := wait_loop_stall_abort_general reads times
        120 target (ps 0) f st
        (by simpa using hnc 0 (by omega))
        (by simpa using hT 0 (by omega))
        (by simpa using hst 0 (by omega))
        hd0 (by omega)
      refine ⟨_, extra, ?_, heq, by simp, rfl⟩
      intro x hx
      rcases hex with h | h <;> subst h
      · simp at hx
      · simpa using hx
    · obtain ⟨A, extra, hex, heq⟩ := wait_loop_progress_step reads times
        120 target (ps 0) f st
        (by simpa using hnc 0 (by omega))
        (by simpa using hT 0 (by omega))
        (by simpa using hst 0 (by omega))
        hd0 (by omega)
      obtain ⟨st2, pulses, hall, hrun, hpolls, hcmds⟩ := ih f
        { readIdx := st.readIdx + 3, lastAttr := A, lastPos := ps 0,
          cnt := st.cnt + 1, polls := st.polls + 1, cmds := st.cmds ++ extra }
        (fun j => ps (j + 1))
        hkpos (by show st.cnt + 1 + k = 51; omega) (by omega)
        (by intro j hj
            show is_movement_complete target
              (reads (st.readIdx + 3 + 3 * j)) = false
            rw [show st.readIdx + 3 + 3 * j = st.readIdx + 3 * (j + 1)
                from by ring]
            exact hnc (j + 1) (by omega))
        (by intro j hj
            show ¬(times (st.polls + 1 + j) > 120)
            rw [show st.polls + 1 + j = st.polls + (j + 1) from by ring]
            exact hT (j + 1) (by omega))
        (by intro j hj
            show reads (st.readIdx + 3 + 3 * j + 2) = some (ps (j + 1))
            rw [show st.readIdx + 3 + 3 * j + 2 = st.readIdx + 3 * (j + 1) + 2
                from by ring]
            exact hst (j + 1) (by omega))
        (by simpa using hd 0 (by omega))
        (by intro j hj; exact hd (j + 1) (by omega))
      refine ⟨st2, extra ++ pulses, ?_, ?_, ?_, ?_⟩
      · intro x hx
        rcases List.mem_append.mp hx with h | h
        · rcases hex with he | he <;> subst he
          · simp at h
          · simpa using h
        · exact hall x h
      · rw [heq]; exact hrun
      · rw [hpolls]
        show st.polls + 1 + (k - 1) = st.polls + (k + 1 - 1)
        omega
      · rw [hcmds]
        show st.cmds ++ extra ++ pulses ++ [Cmd.stop]
          = st.cmds ++ (extra ++ pulses) ++ [Cmd.stop]
        simp [List.append_assoc]

/-- C4 (amended): during a waited move, whenever the stall-detection read at
consecutive polls changes by less than `TOLERANCE` (0.1 unit) for more than
50 — i.e. 51 — consecutive polls without the target having been reached
(and without the timeout firing), the controller aborts as stalled.  Part
one states this for the wait loop from any state with a fresh
`no_movement_count` and any position sequence `ps` (covering creeping
sub-tolerance motion and stalls that begin after initial movement): the
loop returns failure with the issued commands extended by recovery pulses
only plus exactly one stop, after 50 further completed polls.  Part two
instantiates it for a whole `move_to_position` call whose stall window
starts at the first poll: the move fails having issued the TARGET write,
the START pulse, recovery pulses, and exactly one stop. -/
theorem stall_abort_after_51_polls :
    (∀ (reads : ℕ → Option ℚ) (times : ℕ → ℚ) (target : ℚ) (st : WaitSt)
        (ps : ℕ → ℚ) (fuel : ℕ),
      st.cnt = 0 → 51 ≤ fuel →
      (∀ j, j < 51 →
        is_movement_complete target (reads (st.readIdx + 3 * j)) = false) →
      (∀ j, j < 51 → ¬(times (st.polls + j) > 120)) →
      (∀ j, j < 51 → reads (st.readIdx + 3 * j + 2) = some (ps j)) →
      |ps 0 - st.lastPos| < TOLERANCE →
      (∀ j, j + 1 < 51 → |ps (j + 1) - ps j| < TOLERANCE) →
      ∃ (st2 : WaitSt) (pulses : List Cmd),
        (∀ x ∈ pulses, x = Cmd.retryStart) ∧
        wait_loop reads times 120 target fuel st = some (false, st2) ∧
        st2.polls = st.polls + 50 ∧
        st2.cmds = st.cmds ++ pulses ++ [Cmd.stop]) ∧
    (∀ (pt : PositionerType) (reads : ℕ → Option ℚ) (times : ℕ → ℚ)
        (target c c2 : ℚ) (ps : ℕ → ℚ) (fuel : ℕ),
      reads 0 = some c → ¬(|c - target| < TOLERANCE) → reads 1 = some c2 →
      (POSITION_LIMITS pt).1 ≤ determine_shortest_path pt c2 target →
      determine_shortest_path pt c2 target ≤ (POSITION_LIMITS pt).2 →
      51 ≤ fuel →
      (∀ j, j < 51 →
        is_movement_complete target (reads (2 + 3 * j)) = false) →
      (∀ j, j < 51 → ¬(times j > 120)) →
      (∀ j, j < 51 → reads (2 + 3 * j + 2) = some (ps j)) →
      |ps 0 - c| < TOLERANCE →
      (∀ j, j + 1 < 51 → |ps (j + 1) - ps j| < TOLERANCE) →
      ∃ pulses : List Cmd,
        (∀ x ∈ pulses, x = Cmd.retryStart) ∧
        move_to_position pt reads times target true fuel =
          some (false,
            [Cmd.writeTarget
               (convert_to_counts pt (determine_shortest_path pt c2 target)),
             Cmd.startPulse] ++ pulses ++ [Cmd.stop],
            50)) := by
  constructor
  · intro reads times target st ps fuel hcnt hfuel hnc hT hst hd0 hd
    obtain ⟨st2, pulses, hall, hrun, hpolls, hcmds⟩ :=
      wait_loop_stall_window reads times target 51 fuel st ps
        (by omega) (by omega) hfuel hnc hT hst hd0 hd
    exact ⟨st2, pulses, hall, hrun, hpolls, hcmds⟩
  · intro pt reads times target c c2 ps fuel h0 hni h1 hlo hhi hfuel hnc hT
      hst hd0 hd
    rw [move_to_position_enters_loop pt reads times target c c2 fuel
        h0 hni h1 ⟨hlo, hhi⟩]
    obtain ⟨st2, pulses, hall, hrun, hpolls, hcmds⟩ :=
      wait_loop_stall_window reads times target 51 fuel
        { readIdx := 2, lastAttr := none, lastPos := c, cnt := 0, polls := 0,
          cmds := [Cmd.writeTarget
                     (convert_to_counts pt (determine_shortest_path pt c2 target)),
                   Cmd.startPulse] }
        ps (by omega) (by show 0 + 51 = 51; omega) hfuel hnc
        (by intro j hj; show ¬(times (0 + j) > 120)
            rw [Nat.zero_add]; exact hT j hj)
        hst hd0 hd
    refine ⟨pulses, hall, ?_⟩
    rw [hrun]
    show some (false, st2.cmds, st2.polls) = _
    rw [hcmds, hpolls]

/-- Witness for C4 (amended): both parts applied at a concrete input —
antenna roll stuck at 5°, target 10°, every poll reading 5. -/
theorem stall_abort_after_51_polls_witness :
    (∃ (st2 : WaitSt) (pulses : List Cmd),
        (∀ x ∈ pulses, x = Cmd.retryStart) ∧
        wait_loop (fun _ => some 5) (fun _ => 1) 120 10 51
          { readIdx := 2, lastAttr := none, lastPos := 5, cnt := 0,
            polls := 0, cmds := [] } = some (false, st2) ∧
        st2.polls = 0 + 50 ∧
        st2.cmds = [] ++ pulses ++ [Cmd.stop]) ∧
    (∃ pulses : List Cmd,
        (∀ x ∈ pulses, x = Cmd.retryStart) ∧
        move_to_position PositionerType.ANTENNA_ROLL (fun _ => some 5)
          (fun _ => 1) 10 true 51 =
          some (false,
            [Cmd.writeTarget (convert_to_counts PositionerType.ANTENNA_ROLL
               (determine_shortest_path PositionerType.ANTENNA_ROLL 5 10)),
             Cmd.startPulse] ++ pulses ++ [Cmd.stop],
            50)) :=
  ⟨stall_abort_after_51_polls.1 (fun _ => some 5) (fun _ => 1) 10
     { readIdx := 2, lastAttr := none, lastPos := 5, cnt := 0,
       polls := 0, cmds := [] }
     (fun _ => 5) 51 rfl (le_refl 51)
     (fun j hj => by
       simp only [is_movement_complete, decide_eq_false_iff_not, TOLERANCE]
       norm_num)
     (fun j hj => by norm_num)
     (fun j hj => rfl)
     (by norm_num [TOLERANCE])
     (fun j hj => by norm_num [TOLERANCE]),
   stall_abort_after_51_polls.2 PositionerType.ANTENNA_ROLL (fun _ => some 5)
     (fun _ => 1) 10 5 5 (fun _ => 5) 51 rfl (by norm_num [TOLERANCE]) rfl
     (by norm_num [determine_shortest_path, POSITION_LIMITS])
     (by norm_num [determine_shortest_path, POSITION_LIMITS])
     (le_refl 51)
     (fun j hj => by
       simp only [is_movement_complete, decide_eq_false_iff_not, TOLERANCE]
       norm_num)
     (fun j hj => by norm_num)
     (fun j hj => rfl)
     (by norm_num [TOLERANCE])
     (fun j hj => by norm_num [TOLERANCE])⟩

end MmWave

namespace MmWave

/-- The position feed of the C4 counterexample: the first 152 reads (initial
read, `set_target_position` read, and 50 full stalled poll iterations)
report 5; afterwards the position jumps to 10. -/
def stallReads : ℕ → Option ℚ := fun i => if i < 152 then some 5 else some 10

/-- Counterexample to C4 as stated: a run in which the position does not
change at all (delta 0 ≤ 0.01) for 50 consecutive polls without reaching the
target.  The claim demands a stalled abort with failure and one stop; the
code instead keeps polling (`no_movement_count > 50` is still false), sees
the target on the 51st check, and returns success having issued no stop. -/
theorem stall_fifty_polls_no_abort :
    move_to_position PositionerType.ANTENNA_ROLL stallReads (fun _ => 1)
        10 true 52 =
      some (true,
        [Cmd.writeTarget (convert_to_counts PositionerType.ANTENNA_ROLL
           (determine_shortest_path PositionerType.ANTENNA_ROLL 5 10)),
         Cmd.startPulse] ++ List.replicate 50 Cmd.retryStart,
        50) ∧
    Cmd.stop ∉
      ([Cmd.writeTarget (convert_to_counts PositionerType.ANTENNA_ROLL
          (determine_shortest_path PositionerType.ANTENNA_ROLL 5 10)),
        Cmd.startPulse] ++ List.replicate 50 Cmd.retryStart) := by
  constructor
  · rw [move_to_position_enters_loop PositionerType.ANTENNA_ROLL stallReads
        (fun _ => 1) 10 5 5 52 rfl (by norm_num [TOLERANCE]) rfl
        (by norm_num [determine_shortest_path, POSITION_LIMITS])]
    have hrun := wait_loop_stall_run stallReads (fun _ => 1) 10 5 50 2
      { readIdx := 2, lastAttr := none, lastPos := 5, cnt := 0, polls := 0,
        cmds := [Cmd.writeTarget (convert_to_counts PositionerType.ANTENNA_ROLL
                   (determine_shortest_path PositionerType.ANTENNA_ROLL 5 10)),
                 Cmd.startPulse] }
      (by omega) (by simp)
      (by intro i hi
          simp only [stallReads]
          rw [if_pos (by omega : 2 + i < 152)])
      (Or.inl rfl) rfl (fun _ => by norm_num) (by norm_num [TOLERANCE])
    rw [show (52 : ℕ) = 2 + 50 from rfl, hrun]
    have hcomp := wait_loop_complete_step stallReads (fun _ => 1) 120 10 1
      { readIdx := 2 + 3 * 50, lastAttr := some 5, lastPos := 5, cnt := 0 + 50,
        polls := 0 + 50,
        cmds := [Cmd.writeTarget (convert_to_counts PositionerType.ANTENNA_ROLL
                   (determine_shortest_path PositionerType.ANTENNA_ROLL 5 10)),
                 Cmd.startPulse] ++ List.replicate 50 Cmd.retryStart }
      (by show is_movement_complete 10 (stallReads 152) = true
          simp [is_movement_complete, stallReads, TOLERANCE])
    rw [hcomp]
    have hfin : stallReads (2 + 3 * 50 + 1) = some 10 := by
      simp [stallReads]
    rw [hfin]
    simp [TOLERANCE]
  · intro hmem
    rcases List.mem_append.mp hmem with h | h
    · simp at h
    · exact absurd (List.eq_of_mem_replicate h) (by simp)

end MmWave

namespace MmWave

/-- C8 (amended): when the poll loop exits because the completion check saw
the position within `TOLERANCE` of the target, the returned result is
decided by the final confirming read: success iff the final position is
still within `TOLERANCE` when that read succeeds — but success
unconditionally when the final read fails. -/
theorem final_confirmation_decides_result (reads : ℕ → Option ℚ)
    (times : ℕ → ℚ) (max_wait_time target : ℚ) (fuel : ℕ) (st : WaitSt)
    (h : is_movement_complete target (reads st.readIdx) = true) :
    wait_loop reads times max_wait_time target (fuel + 1) st =
      some ((match reads (st.readIdx + 1) with
             | some f => decide (|f - target| < TOLERANCE)
             | none => true),
            { st with readIdx := st.readIdx + 2 }) :=
  wait_loop_complete_step reads times max_wait_time target fuel st h

/-- Witness for C8 (amended): a loop that sees the target immediately and
whose final confirming read also succeeds at the target. -/
theorem final_confirmation_decides_result_witness :
    is_movement_complete 10 ((fun _ : ℕ => some (10 : ℚ)) 0) = true ∧
    wait_loop (fun _ => some 10) (fun _ => 1) 120 10 1
        { readIdx := 0, lastAttr := none, lastPos := 0, cnt := 0, polls := 0,
          cmds := [] } =
      some (true,
        { readIdx := 2, lastAttr := none, lastPos := 0, cnt := 0, polls := 0,
          cmds := [] }) :=
  ⟨by simp [is_movement_complete, TOLERANCE],
   by
    have := final_confirmation_decides_result (fun _ => some 10) (fun _ => 1)
      120 10 0
      { readIdx := 0, lastAttr := none, lastPos := 0, cnt := 0, polls := 0,
        cmds := [] }
      (by simp [is_movement_complete, TOLERANCE])
    rw [this]
    simp [TOLERANCE]⟩

/-- The position feed of the C8 counterexample: initial and
`set_target_position` reads at 5°, the loop's completion check at 10°
(target reached), and the final confirming read failing (`none`). -/
def confirmDropReads : ℕ → Option ℚ := fun i =>
  if i = 2 then some 10 else if i = 3 then none else some 5

/-- Counterexample to C8 as stated: the loop exits on a successful
completion check, the final confirming read fails, and `move_to_position`
still returns success — the claim requires success only when the final
confirming read succeeds and is within tolerance. -/
theorem final_read_failure_still_success :
    confirmDropReads 3 = none ∧
    move_to_position PositionerType.ANTENNA_ROLL confirmDropReads
        (fun _ => 1) 10 true 5 =
      some (true,
        [Cmd.writeTarget (convert_to_counts PositionerType.ANTENNA_ROLL
           (determine_shortest_path PositionerType.ANTENNA_ROLL 5 10)),
         Cmd.startPulse],
        0) := by
  refine ⟨rfl, ?_⟩
  rw [move_to_position_enters_loop PositionerType.ANTENNA_ROLL confirmDropReads
      (fun _ => 1) 10 5 5 5 rfl (by norm_num [TOLERANCE]) rfl
      (by norm_num [determine_shortest_path, POSITION_LIMITS])]
  have hcomp := wait_loop_complete_step confirmDropReads (fun _ => 1) 120 10 4
    { readIdx := 2, lastAttr := none, lastPos := 5, cnt := 0, polls := 0,
      cmds := [Cmd.writeTarget (convert_to_counts PositionerType.ANTENNA_ROLL
                 (determine_shortest_path PositionerType.ANTENNA_ROLL 5 10)),
               Cmd.startPulse] }
    (by show is_movement_complete 10 (confirmDropReads 2) = true
        simp [is_movement_complete, confirmDropReads, TOLERANCE])
  rw [show (5 : ℕ) = 4 + 1 from rfl, hcomp]
  rfl

end MmWave

namespace MmWave

/-- Counterexample to C6 as stated: Python `int()` truncates, it does not
round to nearest.  At `v = 0.9999` on the antenna-roll axis (1000
steps/degree), the code returns 999 while rounding to the nearest integer
gives 1000. -/
theorem convert_to_counts_not_round :
    convert_to_counts PositionerType.ANTENNA_ROLL (9999/10000) = 999 ∧
    round ((9999/10000 : ℚ) * STEPS_PER_DEGREE PositionerType.ANTENNA_ROLL) = 1000 ∧
    convert_to_counts PositionerType.ANTENNA_ROLL (9999/10000) ≠
      round ((9999/10000 : ℚ) * STEPS_PER_DEGREE PositionerType.ANTENNA_ROLL) := by
  have h1 : convert_to_counts PositionerType.ANTENNA_ROLL (9999/10000) = 999 := by
    show pyInt ((9999/10000 : ℚ) * STEPS_PER_DEGREE PositionerType.ANTENNA_ROLL) = 999
    rw [show (9999/10000 : ℚ) * STEPS_PER_DEGREE PositionerType.ANTENNA_ROLL
        = 9999/10 from by norm_num [STEPS_PER_DEGREE]]
    rw [pyInt, if_pos (by norm_num)]
    norm_num
  have h2 : round ((9999/10000 : ℚ) * STEPS_PER_DEGREE PositionerType.ANTENNA_ROLL)
      = 1000 := by
    rw [show (9999/10000 : ℚ) * STEPS_PER_DEGREE PositionerType.ANTENNA_ROLL
        = 9999/10 from by norm_num [STEPS_PER_DEGREE]]
    rw [round_eq]
    norm_num
  exact ⟨h1, h2, by rw [h1, h2]; decide⟩

/-- C6 (amended): `convert_to_counts` returns `v × factor` truncated toward
zero (Python `int()`): the floor for non-negative values, the ceiling for
negative ones — not rounded to the nearest integer. -/
theorem convert_to_counts_truncates (pt : PositionerType) (v : ℚ) :
    (0 ≤ v →
      convert_to_counts pt v = ⌊v * conversionFactor pt⌋ ∧
      (convert_to_counts pt v : ℚ) ≤ v * conversionFactor pt ∧
      v * conversionFactor pt < convert_to_counts pt v + 1) ∧
    (v < 0 →
      convert_to_counts pt v = ⌈v * conversionFactor pt⌉ ∧
      v * conversionFactor pt ≤ (convert_to_counts pt v : ℚ) ∧
      (convert_to_counts pt v : ℚ) - 1 < v * conversionFactor pt) := by
  have hk := conversionFactor_pos pt
  rw [convert_to_counts_eq]
  constructor
  · intro hv
    have hnn : 0 ≤ v * conversionFactor pt := mul_nonneg hv hk.le
    rw [pyInt, if_pos hnn]
    refine ⟨rfl, Int.floor_le _, Int.lt_floor_add_one _⟩
  · intro hv
    have hneg : ¬(0 ≤ v * conversionFactor pt) :=
      not_le.mpr (mul_neg_of_neg_of_pos hv hk)
    rw [pyInt, if_neg hneg]
    refine ⟨rfl, Int.le_ceil _, ?_⟩
    have := Int.ceil_lt_add_one (v * conversionFactor pt)
    linarith

/-- Witness for C6 (amended): both signs, on the antenna-roll axis at
`v = ±0.9999`. -/
theorem convert_to_counts_truncates_witness :
    (0 ≤ (9999/10000 : ℚ) ∧
      convert_to_counts PositionerType.ANTENNA_ROLL (9999/10000) =
        ⌊(9999/10000 : ℚ) * conversionFactor PositionerType.ANTENNA_ROLL⌋) ∧
    ((-9999/10000 : ℚ) < 0 ∧
      convert_to_counts PositionerType.ANTENNA_ROLL (-9999/10000) =
        ⌈(-9999/10000 : ℚ) * conversionFactor PositionerType.ANTENNA_ROLL⌉) :=
  ⟨⟨by norm_num,
    ((convert_to_counts_truncates PositionerType.ANTENNA_ROLL (9999/10000)).1
      (by norm_num)).1⟩,
   ⟨by norm_num,
    ((convert_to_counts_truncates PositionerType.ANTENNA_ROLL (-9999/10000)).2
      (by norm_num)).1⟩⟩

/-- C7: for every axis and every in-range physical value, converting to raw
counts and back recovers the value to within (strictly less than) one
count's resolution `1 / factor`. -/
theorem convert_round_trip (pt : PositionerType) (v : ℚ)
    (h1 : (POSITION_LIMITS pt).1 ≤ v) (h2 : v ≤ (POSITION_LIMITS pt).2) :
    |convert_from_counts pt (convert_to_counts pt v) - v| <
      1 / conversionFactor pt := by
  have hk := conversionFactor_pos pt
  rw [convert_from_counts_eq, convert_to_counts_eq]
  have heq : (pyInt (v * conversionFactor pt) : ℚ) / conversionFactor pt - v =
      ((pyInt (v * conversionFactor pt) : ℚ) - v * conversionFactor pt) /
        conversionFactor pt := by
    field_simp
    ring
  rw [heq, abs_div, abs_of_pos hk, div_lt_div_iff₀ hk hk]
  have habs := pyInt_dist (v * conversionFactor pt)
  nlinarith [habs, hk]

/-- Witness for C7 at a concrete in-range input (antenna roll, 90°). -/
theorem convert_round_trip_witness :
    ((POSITION_LIMITS PositionerType.ANTENNA_ROLL).1 ≤ (90 : ℚ) ∧
     (90 : ℚ) ≤ (POSITION_LIMITS PositionerType.ANTENNA_ROLL).2) ∧
    |convert_from_counts PositionerType.ANTENNA_ROLL
        (convert_to_counts PositionerType.ANTENNA_ROLL 90) - 90| <
      1 / conversionFactor PositionerType.ANTENNA_ROLL :=
  ⟨⟨by norm_num [POSITION_LIMITS], by norm_num [POSITION_LIMITS]⟩,
   convert_round_trip PositionerType.ANTENNA_ROLL 90
     (by norm_num [POSITION_LIMITS]) (by norm_num [POSITION_LIMITS])⟩

end MmWave

namespace MmWave

/-- The Python values relevant to `_execute_modbus_command`'s result test
`if result is not None or isinstance(result, bool)`. -/
inductive PyVal where
  | vnone
  | vint (z : ℤ)
  | vbool (b : Bool)
  deriving DecidableEq

/-- Outcome of one attempt of the wrapped operation `func(instrument)`:
either it raises an exception (carrying the exception text) or it returns a
value. -/
inductive Outcome where
  | raises (msg : String)
  | returns (v : PyVal)

/-- Observable result of `_execute_modbus_command`: the returned value
(`vnone` when the loop exhausts and the function falls through to
`return None`), the number of attempts performed, the backoff sleeps issued
(in seconds, in order), and the `last_error` variable at the end. -/
structure EmcOut where
  result : PyVal
  attemptsMade : ℕ
  sleeps : List ℚ
  lastError : Option String
  deriving DecidableEq

/-- Whether `pat` occurs as a contiguous substring of `s` (character
lists). -/
def containsSub (pat : List Char) : List Char → Bool
  | [] => pat.isEmpty
  | c :: t => pat.isPrefixOf (c :: t) || containsSub pat t

/-- The error classification of `_execute_modbus_command`:
`"illegal data address" in str(last_error).lower()` — `true` selects the
Modbus-address-error log, `false` the generic communication-failure log. -/
def isIllegalAddress (e : String) : Bool :=
  containsSub ("illegal data address".data) (e.data.map Char.toLower)

/-- The retry loop `for attempt in range(max_retries)` of
`_execute_modbus_command`: a raising attempt records the error and sleeps
`0.2 * (attempt + 1)` seconds; an attempt returning a value returns it
unless the value is `None` and not a bool; exhaustion falls through. -/
def execute_modbus_attempts (attempts : ℕ → Outcome) :
    ℕ → ℕ → Option String → List ℚ → EmcOut
  | 0, idx, lastErr, sleeps =>
    { result := PyVal.vnone, attemptsMade := idx, sleeps := sleeps,
      lastError := lastErr }
  | n + 1, idx, lastErr, sleeps =>
    match attempts idx with
    | Outcome.returns v =>
      if v = PyVal.vnone then
        execute_modbus_attempts attempts n (idx + 1) lastErr sleeps
      else
        { result := v, attemptsMade := idx + 1, sleeps := sleeps,
          lastError := lastErr }
    | Outcome.raises e =>
      execute_modbus_attempts attempts n (idx + 1) (some e)
        (sleeps ++ [(1/5) * ((idx : ℚ) + 1)])

/-- Method `PositionerController._execute_modbus_command`: runs the retry loop and,
when a `last_error` remains, logs it with the illegal-address
classification (second component: `some true` = address-error log,
`some false` = generic communication-failure log, `none` = no error log). -/
def execute_modbus_command (attempts : ℕ → Outcome) (max_retries : ℕ) :
    EmcOut × Option Bool :=
  let out := execute_modbus_attempts attempts max_retries 0 none []
  (out, out.lastError.map isIllegalAddress)

/-- C3: an operation that raises on every attempt is retried exactly
`max_retries = 3` times with strictly increasing backoff sleeps
`0.2·1, 0.2·2, 0.2·3`; the final result is `None` (no fabricated numeric
value) and the error surfaced in the log carries the *last* underlying
fault, classified by the illegal-address test — which separates an
illegal-data-address fault from a generic timeout fault. -/
theorem retry_exhaustion (attempts : ℕ → Outcome) (es : ℕ → String)
    (h : ∀ i, i < 3 → attempts i = Outcome.raises (es i)) :
    execute_modbus_command attempts 3 =
      ({ result := PyVal.vnone, attemptsMade := 3,
         sleeps := [1/5, 2/5, 3/5], lastError := some (es 2) },
       some (isIllegalAddress (es 2))) ∧
    List.Chain' (· < ·) [(1:ℚ)/5, 2/5, 3/5] ∧
    isIllegalAddress ("Modbus Error: Illegal Data Address") = true ∧
    isIllegalAddress ("timeout while reading register") = false := by
  refine ⟨?_, by norm_num [List.chain'_cons], by decide, by decide⟩
  simp only [execute_modbus_command, execute_modbus_attempts,
    h 0 (by norm_num), h 1 (by norm_num), h 2 (by norm_num)]
  norm_num

/-- Witness for C3: a concrete operation whose three attempts raise a
timeout, a link error, and finally an illegal-data-address fault. -/
def alwaysFailingAttempts : ℕ → Outcome := fun i =>
  if i = 0 then Outcome.raises ("timeout while reading register")
  else if i = 1 then Outcome.raises ("no response from slave")
  else Outcome.raises ("Modbus Error: Illegal Data Address")

/-- The error texts of `alwaysFailingAttempts`. -/
def alwaysFailingErrors : ℕ → String := fun i =>
  if i = 0 then "timeout while reading register"
  else if i = 1 then "no response from slave"
  else "Modbus Error: Illegal Data Address"

theorem retry_exhaustion_witness :
    (∀ i, i < 3 →
      alwaysFailingAttempts i = Outcome.raises (alwaysFailingErrors i)) ∧
    execute_modbus_command alwaysFailingAttempts 3 =
      ({ result := PyVal.vnone, attemptsMade := 3,
         sleeps := [1/5, 2/5, 3/5],
         lastError := some (alwaysFailingErrors 2) },
       some (isIllegalAddress (alwaysFailingErrors 2))) :=
  ⟨fun i _ => by
      unfold alwaysFailingAttempts alwaysFailingErrors
      split <;> try rfl
      split <;> rfl,
   (retry_exhaustion alwaysFailingAttempts alwaysFailingErrors
      (fun i _ => by
        unfold alwaysFailingAttempts alwaysFailingErrors
        split <;> try rfl
        split <;> rfl)).1⟩

end MmWave

namespace MmWave

/-- Observable events of `MeasurementSystem.move_to_measurement_position`:
the pre-move health-check read of an axis, the commanded move of an axis,
and the 0.5 s inter-move settle delay after a completed move. -/
inductive SeqEv where
  | health (a : PositionerType)
  | moveCmd (a : PositionerType) (target : ℚ)
  | settle (a : PositionerType)
  deriving DecidableEq

/-- Per-axis behaviour for the sequencing model: the result of the health
read (`read_position`) and whether the axis's `move_to_position`
succeeds. -/
structure AxisSim where
  healthRead : Option ℚ
  moveOk : Bool

/-- The fixed `moves` list of `move_to_measurement_position`: antenna roll,
turntable roll, EUT roll, then antenna height last. -/
def measurement_moves (ant_roll_deg ant_height_mm eut_roll_deg tt_roll_deg : ℚ) :
    List (PositionerType × ℚ) :=
  [(PositionerType.ANTENNA_ROLL, ant_roll_deg),
   (PositionerType.TURNTABLE_ROLL, tt_roll_deg),
   (PositionerType.EUT_ROLL, eut_roll_deg),
   (PositionerType.ANTENNA_HEIGHT, ant_height_mm)]

/-- The `for controller, target in moves` body: read the axis position as a
health check (abort on failure before commanding the axis), command the
move (abort on failure), then sleep 0.5 s. -/
def run_moves (sim : PositionerType → AxisSim) :
    List (PositionerType × ℚ) → List SeqEv → Bool × List SeqEv
  | [], evs => (true, evs)
  | (a, t) :: rest, evs =>
    match (sim a).healthRead with
    | none => (false, evs ++ [SeqEv.health a])
    | some _ =>
      if (sim a).moveOk then
        run_moves sim rest (evs ++ [SeqEv.health a, SeqEv.moveCmd a t, SeqEv.settle a])
      else (false, evs ++ [SeqEv.health a, SeqEv.moveCmd a t])

/-- Method `MeasurementSystem.move_to_measurement_position`. -/
def move_to_measurement_position (sim : PositionerType → AxisSim)
    (ant_roll_deg ant_height_mm eut_roll_deg tt_roll_deg : ℚ) :
    Bool × List SeqEv :=
  run_moves sim
    (measurement_moves ant_roll_deg ant_height_mm eut_roll_deg tt_roll_deg) []

/-- C9: the four axes are commanded strictly sequentially in the fixed order
antenna roll, turntable roll, EUT roll, antenna height (all roll axes
before the height axis); each axis's position is read as a health check
before its move and a settle delay follows each completed move; a failed
health read at any stage aborts with failure without commanding that axis
or any later axis. -/
theorem measurement_sequence_order (sim : PositionerType → AxisSim)
    (a h e t : ℚ) :
    ((∀ x, (sim x).healthRead ≠ none ∧ (sim x).moveOk = true) →
      move_to_measurement_position sim a h e t =
        (true,
         [SeqEv.health PositionerType.ANTENNA_ROLL,
          SeqEv.moveCmd PositionerType.ANTENNA_ROLL a,
          SeqEv.settle PositionerType.ANTENNA_ROLL,
          SeqEv.health PositionerType.TURNTABLE_ROLL,
          SeqEv.moveCmd PositionerType.TURNTABLE_ROLL t,
          SeqEv.settle PositionerType.TURNTABLE_ROLL,
          SeqEv.health PositionerType.EUT_ROLL,
          SeqEv.moveCmd PositionerType.EUT_ROLL e,
          SeqEv.settle PositionerType.EUT_ROLL,
          SeqEv.health PositionerType.ANTENNA_HEIGHT,
          SeqEv.moveCmd PositionerType.ANTENNA_HEIGHT h,
          SeqEv.settle PositionerType.ANTENNA_HEIGHT])) ∧
    ((sim PositionerType.ANTENNA_ROLL).healthRead = none →
      move_to_measurement_position sim a h e t =
        (false, [SeqEv.health PositionerType.ANTENNA_ROLL])) ∧
    ((sim PositionerType.ANTENNA_ROLL).healthRead ≠ none →
     (sim PositionerType.ANTENNA_ROLL).moveOk = true →
     (sim PositionerType.TURNTABLE_ROLL).healthRead = none →
      move_to_measurement_position sim a h e t =
        (false,
         [SeqEv.health PositionerType.ANTENNA_ROLL,
          SeqEv.moveCmd PositionerType.ANTENNA_ROLL a,
          SeqEv.settle PositionerType.ANTENNA_ROLL,
          SeqEv.health PositionerType.TURNTABLE_ROLL])) ∧
    ((sim PositionerType.ANTENNA_ROLL).healthRead ≠ none →
     (sim PositionerType.ANTENNA_ROLL).moveOk = true →
     (sim PositionerType.TURNTABLE_ROLL).healthRead ≠ none →
     (sim PositionerType.TURNTABLE_ROLL).moveOk = true →
     (sim PositionerType.EUT_ROLL).healthRead = none →
      move_to_measurement_position sim a h e t =
        (false,
         [SeqEv.health PositionerType.ANTENNA_ROLL,
          SeqEv.moveCmd PositionerType.ANTENNA_ROLL a,
          SeqEv.settle PositionerType.ANTENNA_ROLL,
          SeqEv.health PositionerType.TURNTABLE_ROLL,
          SeqEv.moveCmd PositionerType.TURNTABLE_ROLL t,
          SeqEv.settle PositionerType.TURNTABLE_ROLL,
          SeqEv.health PositionerType.EUT_ROLL])) ∧
    ((sim PositionerType.ANTENNA_ROLL).healthRead ≠ none →
     (sim PositionerType.ANTENNA_ROLL).moveOk = true →
     (sim PositionerType.TURNTABLE_ROLL).healthRead ≠ none →
     (sim PositionerType.TURNTABLE_ROLL).moveOk = true →
     (sim PositionerType.EUT_ROLL).healthRead ≠ none →
     (sim PositionerType.EUT_ROLL).moveOk = true →
     (sim PositionerType.ANTENNA_HEIGHT).healthRead = none →
      move_to_measurement_position sim a h e t =
        (false,
         [SeqEv.health PositionerType.ANTENNA_ROLL,
          SeqEv.moveCmd PositionerType.ANTENNA_ROLL a,
          SeqEv.settle PositionerType.ANTENNA_ROLL,
          SeqEv.health PositionerType.TURNTABLE_ROLL,
          SeqEv.moveCmd PositionerType.TURNTABLE_ROLL t,
          SeqEv.settle PositionerType.TURNTABLE_ROLL,
          SeqEv.health PositionerType.EUT_ROLL,
          SeqEv.moveCmd PositionerType.EUT_ROLL e,
          SeqEv.settle PositionerType.EUT_ROLL,
          SeqEv.health PositionerType.ANTENNA_HEIGHT])) := by
  refine ⟨?_, ?_, ?_, ?_, ?_⟩
  · intro hall
    obtain ⟨v1, hv1⟩ := Option.ne_none_iff_exists'.mp
      (hall PositionerType.ANTENNA_ROLL).1
    obtain ⟨v2, hv2⟩ := Option.ne_none_iff_exists'.mp
      (hall PositionerType.TURNTABLE_ROLL).1
    obtain ⟨v3, hv3⟩ := Option.ne_none_iff_exists'.mp
      (hall PositionerType.EUT_ROLL).1
    obtain ⟨v4, hv4⟩ := Option.ne_none_iff_exists'.mp
      (hall PositionerType.ANTENNA_HEIGHT).1
    simp [move_to_measurement_position, measurement_moves, run_moves,
      hv1, hv2, hv3, hv4,
      (hall PositionerType.ANTENNA_ROLL).2, (hall PositionerType.TURNTABLE_ROLL).2,
      (hall PositionerType.EUT_ROLL).2, (hall PositionerType.ANTENNA_HEIGHT).2]
  · intro h1
    simp [move_to_measurement_position, measurement_moves, run_moves, h1]
  · intro h1 m1 h2
    obtain ⟨v1, hv1⟩ := Option.ne_none_iff_exists'.mp h1
    simp [move_to_measurement_position, measurement_moves, run_moves,
      hv1, m1, h2]
  · intro h1 m1 h2 m2 h3
    obtain ⟨v1, hv1⟩ := Option.ne_none_iff_exists'.mp h1
    obtain ⟨v2, hv2⟩ := Option.ne_none_iff_exists'.mp h2
    simp [move_to_measurement_position, measurement_moves, run_moves,
      hv1, m1, hv2, m2, h3]
  · intro h1 m1 h2 m2 h3 m3 h4
    obtain ⟨v1, hv1⟩ := Option.ne_none_iff_exists'.mp h1
    obtain ⟨v2, hv2⟩ := Option.ne_none_iff_exists'.mp h2
    obtain ⟨v3, hv3⟩ := Option.ne_none_iff_exists'.mp h3
    simp [move_to_measurement_position, measurement_moves, run_moves,
      hv1, m1, hv2, m2, hv3, m3, h4]

/-- Witness for C9: all four axes healthy and movable — the full fixed
sequence is produced. -/
theorem measurement_sequence_order_witness :
    (∀ x, ((fun _ : PositionerType =>
        AxisSim.mk (some 0) true) x).healthRead ≠ none ∧
      ((fun _ : PositionerType => AxisSim.mk (some 0) true) x).moveOk = true) ∧
    move_to_measurement_position (fun _ => AxisSim.mk (some 0) true)
        45 1600 30 90 =
      (true,
       [SeqEv.health PositionerType.ANTENNA_ROLL,
        SeqEv.moveCmd PositionerType.ANTENNA_ROLL 45,
        SeqEv.settle PositionerType.ANTENNA_ROLL,
        SeqEv.health PositionerType.TURNTABLE_ROLL,
        SeqEv.moveCmd PositionerType.TURNTABLE_ROLL 90,
        SeqEv.settle PositionerType.TURNTABLE_ROLL,
        SeqEv.health PositionerType.EUT_ROLL,
        SeqEv.moveCmd PositionerType.EUT_ROLL 30,
        SeqEv.settle PositionerType.EUT_ROLL,
        SeqEv.health PositionerType.ANTENNA_HEIGHT,
        SeqEv.moveCmd PositionerType.ANTENNA_HEIGHT 1600,
        SeqEv.settle PositionerType.ANTENNA_HEIGHT]) :=
  ⟨fun x => ⟨by simp, rfl⟩,
   (measurement_sequence_order (fun _ => AxisSim.mk (some 0) true)
      45 1600 30 90).1 (fun x => ⟨by simp, rfl⟩)⟩

end MmWave

namespace MmWave

/-- Actions on a shared channel: acquiring/releasing the channel's lock
(`SharedPortController.lock`, a `threading.RLock`) and a raw register
access on the serial bus. -/
inductive Act where
  | acquire
  | release
  | bus (reg : ℕ)
  deriving DecidableEq

/-- Thread identifier: the two controllers sharing one channel (antenna
roll and antenna height on one `SharedPortController`). -/
abbrev Tid := Bool

/-- An event: an action performed by one thread. -/
abbrev Ev := Tid × Act

/-- Lock state of the shared channel: free, or held by a thread with an
RLock reentrancy count. -/
abbrev LockSt := Option (Tid × ℕ)

/-- One scheduling step.  `none` means the event is not enabled under lock
semantics: acquiring blocks while the other thread holds the lock, releasing
requires holding it; bus accesses are raw serial traffic and always
possible (it is the code's structure, not the transport, that protects
them). -/
def lockStep : LockSt → Ev → Option LockSt
  | none, (t, Act.acquire) => some (some (t, 1))
  | some (u, n), (t, Act.acquire) =>
    if u = t then some (some (u, n + 1)) else none
  | some (u, n), (t, Act.release) =>
    if u = t then some (if n ≤ 1 then none else some (u, n - 1)) else none
  | none, (_, Act.release) => none
  | s, (_, Act.bus _) => some s

/-- Execute an event trace from a lock state; `none` when some step is not
enabled (no real schedule can produce that trace). -/
def execTrace : LockSt → List Ev → Option LockSt
  | s, [] => some s
  | s, e :: tr =>
    match lockStep s e with
    | none => none
    | some s2 => execTrace s2 tr

/-- The event pattern of one register operation executed by
`_execute_modbus_command` on a shared channel: the
`with self.port_controller.lock:` block acquires the lock, performs the
operation's bus accesses, and releases the lock only afterwards — the lock
is held for the operation's full duration. -/
def registerOperation (t : Tid) (body : List ℕ) : List Ev :=
  (t, Act.acquire) :: (body.map (fun r => (t, Act.bus r)) ++ [(t, Act.release)])

/-- Relation `Interleave l1 l2 tr`: `tr` is a concurrent interleaving of the two
threads' instruction streams `l1` and `l2` (each stream's order is
preserved). -/
inductive Interleave : List Ev → List Ev → List Ev → Prop
  | nil : Interleave [] [] []
  | left {e : Ev} {l1 l2 tr : List Ev} :
      Interleave l1 l2 tr → Interleave (e :: l1) l2 (e :: tr)
  | right {e : Ev} {l1 l2 tr : List Ev} :
      Interleave l1 l2 tr → Interleave l1 (e :: l2) (e :: tr)

theorem interleave_nil_left : ∀ {l tr : List Ev}, Interleave [] l tr → tr = l := by
  intro l
  induction l with
  | nil => intro tr h; cases h; rfl
  | cons e l ih =>
    intro tr h
    cases h with
    | right h2 => rw [ih h2]

theorem interleave_symm {l1 l2 tr : List Ev} (h : Interleave l1 l2 tr) :
    Interleave l2 l1 tr := by
  induction h with
  | nil => exact Interleave.nil
  | left _ ih => exact Interleave.right ih
  | right _ ih => exact Interleave.left ih

theorem interleave_of_nil (l : List Ev) : Interleave [] l l := by
  induction l with
  | nil => exact Interleave.nil
  | cons e l ih => exact Interleave.right ih

theorem interleave_append (l1 l2 : List Ev) : Interleave l1 l2 (l1 ++ l2) := by
  induction l1 with
  | nil => simpa using interleave_of_nil l2
  | cons e l ih => exact Interleave.left ih

/-- While thread `t` holds the lock, the other thread `u` — whose next
instruction is its own `acquire` — cannot run: any enabled interleaving must
schedule the whole remainder of `t`'s critical section first. -/
theorem locked_run (t u : Tid) (hne : u ≠ t) :
    ∀ (body : List ℕ) (l2 tr : List Ev) (s' : LockSt),
      Interleave (body.map (fun r => (t, Act.bus r)) ++ [(t, Act.release)])
        ((u, Act.acquire) :: l2) tr →
      execTrace (some (t, 1)) tr = some s' →
      tr = (body.map (fun r => (t, Act.bus r)) ++ [(t, Act.release)]) ++
            (u, Act.acquire) :: l2 := by
  have hut : ¬(t = u) := fun h => hne h.symm
  intro body
  induction body with
  | nil =>
    intro l2 tr s' hint hexec
    simp only [List.map_nil, List.nil_append] at hint ⊢
    cases hint with
    | left h2 =>
      simp only [interleave_nil_left h2, List.singleton_append]
    | right h2 =>
      simp [execTrace, lockStep, hut] at hexec
  | cons r body ih =>
    intro l2 tr s' hint hexec
    simp only [List.map_cons, List.cons_append] at hint ⊢
    cases hint with
    | left h2 =>
      simp only [execTrace, lockStep] at hexec
      rw [ih l2 _ s' h2 hexec]
    | right h2 =>
      simp [execTrace, lockStep, hut] at hexec

/-- C5: two register operations issued by the two controllers sharing one
channel can only be scheduled atomically: every enabled interleaving of the
two operations' events is one operation in full followed by the other — no
bus access of one operation ever falls inside the other's lock-protected
span, so at most one register operation per channel is in flight at any
instant. -/
theorem shared_channel_mutual_exclusion (bodyA bodyB : List ℕ)
    (tr : List Ev) (s' : LockSt)
    (hint : Interleave (registerOperation true bodyA)
      (registerOperation false bodyB) tr)
    (hexec : execTrace none tr = some s') :
    tr = registerOperation true bodyA ++ registerOperation false bodyB ∨
    tr = registerOperation false bodyB ++ registerOperation true bodyA := by
  simp only [registerOperation] at hint
  cases hint with
  | left h2 =>
    left
    simp only [execTrace, lockStep] at hexec
    have := locked_run true false (by decide) bodyA _ _ s' h2 hexec
    simp only [registerOperation, List.cons_append, this]
  | right h2 =>
    right
    simp only [execTrace, lockStep] at hexec
    have := locked_run false true (by decide) bodyB _ _ s'
      (interleave_symm h2) hexec
    simp only [registerOperation, List.cons_append, this]

/-- Witness for C5: a concrete schedule of one write-style operation per
controller, enabled under the lock semantics. -/
theorem shared_channel_mutual_exclusion_witness :
    Interleave (registerOperation true [6]) (registerOperation false [2])
      (registerOperation true [6] ++ registerOperation false [2]) ∧
    execTrace none
      (registerOperation true [6] ++ registerOperation false [2]) =
      some none ∧
    (registerOperation true [6] ++ registerOperation false [2] =
       registerOperation true [6] ++ registerOperation false [2] ∨
     registerOperation true [6] ++ registerOperation false [2] =
       registerOperation false [2] ++ registerOperation true [6]) :=
  ⟨interleave_append _ _, rfl,
   shared_channel_mutual_exclusion [6] [2]
     (registerOperation true [6] ++ registerOperation false [2]) none
     (interleave_append _ _) rfl⟩

end MmWave
